import Mathlib

/-!
Shallow embedding of the fastapi-balance service (src/app/crud.py,
src/app/routes.py, src/models/models.py, src/models/database.py).

Monetary values are fixed-point decimals of scale 2 (`DECIMAL(15,2)` in the
schema); inside the store we represent them as integers counting hundredths.
The request validators work on arbitrary-scale decimals, modelled by `Dec`.
-/

deriving instance DecidableEq for Except

namespace BalanceService

/-- A row of the `users` table (id SERIAL PRIMARY KEY, username UNIQUE,
balance DECIMAL(15,2) CHECK (balance >= 0)); password hash and timestamps
are irrelevant to the claims and omitted. Balance counts hundredths. -/
structure Account where
  id : Nat
  username : String
  balance : Int
deriving DecidableEq

/-- A row of the `transfers` table (from database.py: id SERIAL,
from_user_id, to_user_id, amount CHECK (amount > 0), description,
CHECK (from_user_id != to_user_id)). -/
structure TransferRec where
  id : Nat
  from_user_id : Nat
  to_user_id : Nat
  amount : Int
  description : Option String
deriving DecidableEq

/-- The database state: the `users` table and the `transfers` ledger. -/
structure DB where
  users : List Account
  transfers : List TransferRec
deriving DecidableEq

/-- `SELECT ... FROM users WHERE id = $1` (first matching row). -/
def findUser (db : DB) (uid : Nat) : Option Account :=
  db.users.find? (fun a => a.id == uid)

/-- `UserCRUD.get_user_by_username`: `SELECT ... FROM users WHERE username = $1`. -/
def get_user_by_username (db : DB) (name : String) : Option Account :=
  db.users.find? (fun a => a.username == name)

/-- `UserCRUD.get_balance`: `SELECT balance FROM users WHERE id = $1`. -/
def get_balance (db : DB) (uid : Nat) : Option Int :=
  (findUser db uid).map (fun a => a.balance)

/-- Errors raised by the database itself (CHECK-constraint violations,
surfaced by asyncpg as `CheckViolationError`). -/
inductive DbErr where
  | checkViolation
deriving DecidableEq

/-- `UserCRUD.update_balance`: `UPDATE users SET balance = $2 WHERE id = $1
AND balance >= 0`, compared against the status string `UPDATE 1`.
Writing a negative balance to a matched row violates the table CHECK
(balance >= 0) and raises instead of returning a status. -/
def update_balance (db : DB) (uid : Nat) (nb : Int) : Except DbErr (DB × Bool) :=
  let matched := db.users.countP (fun a => a.id == uid && decide (0 ≤ a.balance))
  if matched = 0 then .ok (db, false)
  else if nb < 0 then .error .checkViolation
  else
    let users2 := db.users.map
      (fun a => if a.id == uid && decide (0 ≤ a.balance)
                then { a with balance := nb } else a)
    .ok ({ db with users := users2 }, matched == 1)

/-- `UPDATE users SET balance = balance + d WHERE id = $1` applied to the
rows (the CHECK is handled in `execUpdateDelta`). -/
def adjustRows (l : List Account) (uid : Nat) (d : Int) : List Account :=
  l.map (fun a => if a.id == uid then { a with balance := a.balance + d } else a)

/-- `UPDATE users SET balance = balance + d WHERE id = $1` under the
CHECK (balance >= 0) constraint: the statement fails iff some updated row
would end up negative. Used by the transfer engine for debit (d = -amount)
and credit (d = +amount). -/
def execUpdateDelta (db : DB) (uid : Nat) (d : Int) : Except DbErr DB :=
  if db.users.all (fun a => !(a.id == uid) || decide (0 ≤ a.balance + d)) then
    .ok { db with users := adjustRows db.users uid d }
  else .error .checkViolation

/-- Storage events issued by `TransferCRUD.create_transfer`, in program
order. The first statement `SELECT balance ... FOR UPDATE` both locks the
row and reads its balance; the second `SELECT id ... FOR UPDATE` only
locks. -/
inductive Ev where
  | lockRow (uid : Nat)
  | readBalance (uid : Nat)
  | updateRow (uid : Nat)
  | insertLedger
deriving DecidableEq

/-- The distinct failures of `TransferCRUD.create_transfer`: the three
`ValueError`s raised by the routine and the `CheckViolationError` coming
from the schema constraints. -/
inductive TErr where
  | senderNotFound
  | insufficientFunds
  | receiverNotFound
  | checkViolation
deriving DecidableEq

/-- `INSERT INTO transfers (from_user_id, to_user_id, amount, description)`
under the table constraints CHECK (amount > 0),
CHECK (from_user_id != to_user_id) and the two foreign keys. -/
def insertTransferRow (db : DB) (f t : Nat) (a : Int) (d : Option String) :
    Except DbErr (DB × TransferRec) :=
  if decide (0 < a) && decide (f ≠ t)
      && (findUser db f).isSome && (findUser db t).isSome then
    .ok ({ db with transfers := db.transfers ++ [⟨db.transfers.length + 1, f, t, a, d⟩] },
         ⟨db.transfers.length + 1, f, t, a, d⟩)
  else .error .checkViolation

/-- The body of `TransferCRUD.create_transfer` run inside the transaction,
returning the trace of storage events it issued together with its outcome.
Program order (crud.py lines 126-164): lock+read sender balance, sender
existence check, sufficiency check, lock receiver, receiver existence
check, debit sender, credit receiver, insert ledger row. -/
def create_transfer_run (db : DB) (f t : Nat) (a : Int) (d : Option String) :
    List Ev × Except TErr (DB × TransferRec) :=
  match findUser db f with
  | none => ([.lockRow f, .readBalance f], .error .senderNotFound)
  | some sender =>
    if sender.balance < a then
      ([.lockRow f, .readBalance f], .error .insufficientFunds)
    else
      match findUser db t with
      | none => ([.lockRow f, .readBalance f, .lockRow t], .error .receiverNotFound)
      | some _ =>
        match execUpdateDelta db f (-a) with
        | .error _ =>
          ([.lockRow f, .readBalance f, .lockRow t, .updateRow f],
           .error .checkViolation)
        | .ok db1 =>
          match execUpdateDelta db1 t a with
          | .error _ =>
            ([.lockRow f, .readBalance f, .lockRow t, .updateRow f, .updateRow t],
             .error .checkViolation)
          | .ok db2 =>
            match insertTransferRow db2 f t a d with
            | .error _ =>
              ([.lockRow f, .readBalance f, .lockRow t, .updateRow f, .updateRow t,
                .insertLedger], .error .checkViolation)
            | .ok (db3, r) =>
              ([.lockRow f, .readBalance f, .lockRow t, .updateRow f, .updateRow t,
                .insertLedger], .ok (db3, r))

/-- `TransferCRUD.create_transfer`: the body runs inside
`connection.transaction()`, so on any exception the transaction rolls back
and the caller observes the pre-call database state. -/
def create_transfer (db : DB) (f t : Nat) (a : Int) (d : Option String) :
    DB × Except TErr TransferRec :=
  match (create_transfer_run db f t a d).2 with
  | .ok (db2, r) => (db2, .ok r)
  | .error e => (db, .error e)

/-- The ids of the rows on which `create_transfer` requests an exclusive
(`FOR UPDATE`) lock, in acquisition order. -/
def transferLocks (db : DB) (f t : Nat) (a : Int) : List Nat :=
  (create_transfer_run db f t a none).1.filterMap
    (fun e => match e with | .lockRow u => some u | _ => none)

/-- Failures of the single-account balance routes (routes.py):
404 user not found, 400 insufficient funds, 400 update failed, and the
generic 500 produced when `update_balance` raises a check violation. -/
inductive BalErr where
  | userNotFound
  | insufficientBalance
  | updateFailed
  | internalError
deriving DecidableEq

/-- `deposit_balance` (routes.py lines 86-119): read the current balance,
add the deposited amount, write it back via `update_balance`; the new
balance is returned in the response on success. -/
def deposit_balance (db : DB) (uid : Nat) (a : Int) : DB × Except BalErr Int :=
  match get_balance db uid with
  | none => (db, .error .userNotFound)
  | some b =>
    match update_balance db uid (b + a) with
    | .error _ => (db, .error .internalError)
    | .ok (db2, true) => (db2, .ok (b + a))
    | .ok (db2, false) => (db2, .error .updateFailed)

/-- `withdraw_balance` (routes.py lines 128-159): read the current balance,
reject if it is smaller than the requested amount, otherwise write
`balance - amount` back via `update_balance` and return it. -/
def withdraw_balance (db : DB) (uid : Nat) (a : Int) : DB × Except BalErr Int :=
  match get_balance db uid with
  | none => (db, .error .userNotFound)
  | some b =>
    if b < a then (db, .error .insufficientBalance)
    else
      match update_balance db uid (b - a) with
      | .error _ => (db, .error .internalError)
      | .ok (db2, true) => (db2, .ok (b - a))
      | .ok (db2, false) => (db2, .error .updateFailed)

/-- Failures of the transfer route (routes.py lines 177-227): the 400
self-transfer rejection, the 404 recipient-username lookup failure, and
any failure propagated out of `TransferCRUD.create_transfer`. -/
inductive RouteErr where
  | selfTransfer
  | recipientNotFound
  | engineFailure (e : TErr)
deriving DecidableEq

/-- The `POST /transfers/` route handler: reject when the recipient
username equals the authenticated user's own username, resolve the
recipient by username, then run the engine with the authenticated user's
id as source and the recipient's id as destination. -/
def route_create_transfer (db : DB) (cu : Account) (to_username : String)
    (a : Int) (d : Option String) : DB × Except RouteErr TransferRec :=
  if to_username == cu.username then (db, .error .selfTransfer)
  else
    match get_user_by_username db to_username with
    | none => (db, .error .recipientNotFound)
    | some recipient =>
      match create_transfer db cu.id recipient.id a d with
      | (db2, .ok r) => (db2, .ok r)
      | (db2, .error e) => (db2, .error (.engineFailure e))

/-- The three balance-mutating operations the service exposes, identified
by the route that performs them. -/
inductive Op where
  | deposit (uid : Nat) (a : Int)
  | withdraw (uid : Nat) (a : Int)
  | transfer (cu : Account) (to_username : String) (a : Int) (d : Option String)

/-- The database state after one route invocation (its observable
post-state, whether the request succeeded or failed). -/
def applyOp (db : DB) (op : Op) : DB :=
  match op with
  | .deposit uid a => (deposit_balance db uid a).1
  | .withdraw uid a => (withdraw_balance db uid a).1
  | .transfer cu toname a d => (route_create_transfer db cu toname a d).1

/-- Every stored balance is non-negative (the `CHECK (balance >= 0)`
schema invariant). -/
def Nonneg (db : DB) : Prop := ∀ a ∈ db.users, 0 ≤ a.balance

/-- The total money in the system: the sum of all stored balances. -/
def sumBal (db : DB) : Int := (db.users.map (fun a => a.balance)).sum

/-- The account ids present in the `users` table, in row order. -/
def idsOf (db : DB) : List Nat := db.users.map (fun a => a.id)

/-- A decimal number `mant / 10 ^ scale`, the model of Python `Decimal`
values flowing through the pydantic request models. -/
structure Dec where
  mant : Int
  scale : Nat
deriving DecidableEq

/-- Division of `n` by `m` rounded half-to-even (the default
`ROUND_HALF_EVEN` of `Decimal.quantize`), phrased with Euclidean
quotient/remainder. -/
def roundHalfEvenDiv (n m : Int) : Int :=
  let q := Int.ediv n m
  let r := Int.emod n m
  if 2 * r < m then q
  else if m < 2 * r then q + 1
  else if Int.emod q 2 = 0 then q else q + 1

/-- `v.quantize(Decimal('0.01'))`: rescale to exactly two fractional
digits, rounding half-to-even when digits are dropped. -/
def quantize2 (v : Dec) : Dec :=
  if v.scale ≤ 2 then ⟨v.mant * (10 : Int) ^ (2 - v.scale), 2⟩
  else ⟨roundHalfEvenDiv v.mant ((10 : Int) ^ (v.scale - 2)), 2⟩

/-- `TransferRequest.validate_amount` together with the field constraint
`gt=0`: a non-positive amount is rejected, any other amount is quantized
to two fractional digits and accepted. -/
def transfer_validate_amount (v : Dec) : Except String Dec :=
  if v.mant ≤ 0 then .error "Сумма перевода должна быть больше нуля"
  else .ok (quantize2 v)

/-- `DepositRequest.validate_amount` together with the field constraint
`gt=0`. -/
def deposit_validate_amount (v : Dec) : Except String Dec :=
  if v.mant ≤ 0 then .error "Сумма пополнения должна быть больше нуля"
  else .ok (quantize2 v)

/-- `WithdrawRequest.validate_amount` together with the field constraint
`gt=0`. -/
def withdraw_validate_amount (v : Dec) : Except String Dec :=
  if v.mant ≤ 0 then .error "Сумма списания должна быть больше нуля"
  else .ok (quantize2 v)

/-- Two accounts holding 1000.00 each, as in the spec scenario. -/
def exDB : DB := ⟨[⟨1, "alice", 100000⟩, ⟨2, "bob", 100000⟩], []⟩

/-- A database holding only a broke sender: account 1 with balance 0. -/
def exPoorDB : DB := ⟨[⟨1, "alice", 0⟩], []⟩

theorem execUpdateDelta_ok {db : DB} {uid : Nat} {d : Int} {db2 : DB}
    (h : execUpdateDelta db uid d = .ok db2) :
    db2.users = adjustRows db.users uid d ∧ db2.transfers = db.transfers := by
  unfold execUpdateDelta at h
  split at h
  · cases h; exact ⟨rfl, rfl⟩
  · exact Except.noConfusion h

theorem execUpdateDelta_ok_all {db : DB} {uid : Nat} {d : Int} {db2 : DB}
    (h : execUpdateDelta db uid d = .ok db2) :
    db.users.all (fun a => !(a.id == uid) || decide (0 ≤ a.balance + d)) = true := by
  unfold execUpdateDelta at h
  split at h
  · assumption
  · exact Except.noConfusion h

theorem adjustRows_nonneg {l : List Account} {uid : Nat} {d : Int}
    (hall : l.all (fun a => !(a.id == uid) || decide (0 ≤ a.balance + d)) = true)
    (hn : ∀ a ∈ l, 0 ≤ a.balance) :
    ∀ x ∈ adjustRows l uid d, 0 ≤ x.balance := by
  intro x hx
  rcases List.mem_map.1 hx with ⟨a, ha, rfl⟩
  have hA := List.all_eq_true.1 hall a ha
  by_cases hid : (a.id == uid) = true
  · simp only [hid, Bool.not_true, Bool.false_or, decide_eq_true_eq] at hA
    simpa [hid] using hA
  · simpa [hid] using hn a ha

theorem insertTransferRow_ok {db : DB} {f t : Nat} {a : Int} {d : Option String}
    {db2 : DB} {r : TransferRec}
    (h : insertTransferRow db f t a d = .ok (db2, r)) :
    0 < a ∧ f ≠ t ∧ db2.users = db.users ∧
      db2.transfers = db.transfers ++ [r] ∧
      r.from_user_id = f ∧ r.to_user_id = t ∧ r.amount = a ∧ r.description = d := by
  unfold insertTransferRow at h
  split at h
  · next hc =>
    simp only [Bool.and_eq_true, decide_eq_true_eq] at hc
    cases h
    exact ⟨hc.1.1.1, hc.1.1.2, rfl, rfl, rfl, rfl, rfl, rfl⟩
  · exact Except.noConfusion h

/-- The success case of the transfer engine body: both accounts were found,
funds were sufficient, the amount is positive, source and destination are
distinct, and the resulting state is the debit, the credit, and the
appended ledger row. -/
theorem create_transfer_run_ok {db : DB} {f t : Nat} {a : Int} {d : Option String}
    {tr : List Ev} {db3 : DB} {r : TransferRec}
    (h : create_transfer_run db f t a d = (tr, .ok (db3, r))) :
    ∃ s recv, findUser db f = some s ∧ findUser db t = some recv ∧
      ¬ s.balance < a ∧ 0 < a ∧ f ≠ t ∧
      db3.users = adjustRows (adjustRows db.users f (-a)) t a ∧
      db3.transfers = db.transfers ++ [r] ∧
      r.from_user_id = f ∧ r.to_user_id = t ∧ r.amount = a := by
  unfold create_transfer_run at h
  split at h
  · simp at h
  · next sender hs =>
    split at h
    · simp at h
    · next hbal =>
      split at h
      · simp at h
      · next recv hr =>
        split at h
        · simp at h
        · next db1 hu1 =>
          split at h
          · simp at h
          · next db2 hu2 =>
            split at h
            · simp at h
            · next db3' r' hins =>
              simp only [Prod.mk.injEq, Except.ok.injEq] at h
              obtain ⟨-, h2⟩ := h
              obtain ⟨rfl, rfl⟩ : db3' = db3 ∧ r' = r := h2
              obtain ⟨hpos, hne, hu, ht, hrf, hrt, hra, -⟩ := insertTransferRow_ok hins
              obtain ⟨hu1a, hu1b⟩ := execUpdateDelta_ok hu1
              obtain ⟨hu2a, hu2b⟩ := execUpdateDelta_ok hu2
              refine ⟨sender, recv, hs, hr, hbal, hpos, hne, ?_, ?_, hrf, hrt, hra⟩
              · rw [hu, hu2a, hu1a]
              · rw [ht, hu2b, hu1b]

/-- On any engine failure the transaction rolls back: the observable state
is the pre-call database. -/
theorem create_transfer_error_state {db : DB} {f t : Nat} {a : Int}
    {d : Option String} {e : TErr}
    (h : (create_transfer db f t a d).2 = .error e) :
    (create_transfer db f t a d).1 = db := by
  unfold create_transfer at h ⊢
  split at h
  · simp at h
  · rfl

/-- Lifting `create_transfer_run_ok` to `create_transfer`. -/
theorem create_transfer_ok {db : DB} {f t : Nat} {a : Int} {d : Option String}
    {r : TransferRec}
    (h : (create_transfer db f t a d).2 = .ok r) :
    ∃ s recv, findUser db f = some s ∧ findUser db t = some recv ∧
      ¬ s.balance < a ∧ 0 < a ∧ f ≠ t ∧
      (create_transfer db f t a d).1.users = adjustRows (adjustRows db.users f (-a)) t a ∧
      (create_transfer db f t a d).1.transfers = db.transfers ++ [r] ∧
      r.from_user_id = f ∧ r.to_user_id = t ∧ r.amount = a := by
  unfold create_transfer at h ⊢
  split at h
  · next db3 r' hrun =>
    rcases hrun2 : create_transfer_run db f t a d with ⟨tr, res⟩
    rw [hrun2] at hrun
    cases hrun
    cases h
    simpa using create_transfer_run_ok hrun2
  · simp at h

/-- The engine never admits a non-positive amount to the ledger: success
requires the `CHECK (amount > 0)` of the INSERT to pass. -/
theorem create_transfer_ok_pos {db : DB} {f t : Nat} {a : Int} {d : Option String}
    {r : TransferRec} (h : (create_transfer db f t a d).2 = .ok r) :
    0 < a ∧ f ≠ t := by
  obtain ⟨-, -, -, -, -, hpos, hne, -⟩ := create_transfer_ok h
  exact ⟨hpos, hne⟩

/-- `adjustRows` never touches the `id` column. -/
theorem idsOf_adjustRows (l : List Account) (uid : Nat) (d : Int) :
    (adjustRows l uid d).map (fun a => a.id) = l.map (fun a => a.id) := by
  unfold adjustRows
  rw [List.map_map]
  refine List.map_congr_left (fun a _ => ?_)
  by_cases hid : a.id = uid <;> simp [hid]

/-- `countP` of an id-test is unchanged by `adjustRows`. -/
theorem countP_adjustRows (l : List Account) (uid x : Nat) (d : Int) :
    (adjustRows l uid d).countP (fun a => a.id == x) = l.countP (fun a => a.id == x) := by
  unfold adjustRows
  rw [List.countP_map]
  refine List.countP_congr (fun a _ => ?_)
  by_cases hid : a.id = uid <;> simp [hid, Function.comp]

/-- Debiting/crediting one account id shifts the balance total by the
delta times the number of matching rows. -/
theorem sum_adjustRows (l : List Account) (uid : Nat) (d : Int) :
    ((adjustRows l uid d).map (fun a => a.balance)).sum
      = (l.map (fun a => a.balance)).sum + d * (l.countP (fun a => a.id == uid) : Int) := by
  induction l with
  | nil => simp [adjustRows]
  | cons h tl ih =>
    simp only [adjustRows, List.map_cons, List.sum_cons, List.countP_cons] at ih ⊢
    by_cases hid : h.id = uid
    · simp only [hid, beq_self_eq_true, if_true]
      push_cast
      linarith [ih]
    · have hb : (h.id == uid) = false := by simpa using hid
      simp only [hb, Bool.false_eq_true, if_false]
      push_cast
      linarith [ih]

/-- In a table whose ids are pairwise distinct, a present id matches
exactly one row. -/
theorem countP_id_eq_one {l : List Account} {uid : Nat} {acc : Account}
    (hnd : (l.map (fun a => a.id)).Nodup) (hmem : acc ∈ l) (hid : acc.id = uid) :
    l.countP (fun a => a.id == uid) = 1 := by
  induction l with
  | nil => cases hmem
  | cons h tl ih =>
    simp only [List.map_cons, List.nodup_cons] at hnd
    rcases List.mem_cons.1 hmem with rfl | htl
    · have hzero : tl.countP (fun a => a.id == uid) = 0 := by
        refine List.countP_eq_zero.2 (fun x hx hpx => ?_)
        have hxid : x.id = uid := by simpa using hpx
        exact hnd.1 (List.mem_map.2 ⟨x, hx, by rw [hxid, hid]⟩)
      simp [List.countP_cons, hid, hzero]
    · have hne : ¬ h.id = uid := by
        intro hcon
        exact hnd.1 (List.mem_map.2 ⟨acc, htl, by rw [hid, hcon]⟩)
      simp [List.countP_cons, hne, ih hnd.2 htl]

theorem findUser_some {db : DB} {uid : Nat} {acc : Account}
    (h : findUser db uid = some acc) : acc ∈ db.users ∧ acc.id = uid := by
  refine ⟨List.mem_of_find?_eq_some h, ?_⟩
  have := List.find?_some h
  simpa using this

/-- The success case of the engine body, exposing the three storage steps
it is composed of. -/
theorem create_transfer_run_ok_steps {db : DB} {f t : Nat} {a : Int}
    {d : Option String} {tr : List Ev} {db3 : DB} {r : TransferRec}
    (h : create_transfer_run db f t a d = (tr, .ok (db3, r))) :
    ∃ s recv db1 db2, findUser db f = some s ∧ findUser db t = some recv ∧
      ¬ s.balance < a ∧
      execUpdateDelta db f (-a) = .ok db1 ∧
      execUpdateDelta db1 t a = .ok db2 ∧
      insertTransferRow db2 f t a d = .ok (db3, r) := by
  unfold create_transfer_run at h
  split at h
  · simp at h
  · next sender hs =>
    split at h
    · simp at h
    · next hbal =>
      split at h
      · simp at h
      · next recv hr =>
        split at h
        · simp at h
        · next db1 hu1 =>
          split at h
          · simp at h
          · next db2 hu2 =>
            split at h
            · simp at h
            · next db3' r' hins =>
              simp only [Prod.mk.injEq, Except.ok.injEq] at h
              obtain ⟨-, h2⟩ := h
              obtain ⟨rfl, rfl⟩ : db3' = db3 ∧ r' = r := h2
              exact ⟨sender, recv, db1, db2, hs, hr, hbal, hu1, hu2, hins⟩

theorem execUpdateDelta_nonneg {db db2 : DB} {uid : Nat} {d : Int}
    (hn : Nonneg db) (h : execUpdateDelta db uid d = .ok db2) : Nonneg db2 := by
  intro x hx
  obtain ⟨hu, -⟩ := execUpdateDelta_ok h
  rw [hu] at hx
  exact adjustRows_nonneg (execUpdateDelta_ok_all h) hn x hx

/-- The transfer engine preserves non-negativity of every stored balance:
on failure the transaction rolls back, on success both UPDATE statements
passed the `CHECK (balance >= 0)`. -/
theorem create_transfer_nonneg {db : DB} (hn : Nonneg db) (f t : Nat) (a : Int)
    (d : Option String) : Nonneg (create_transfer db f t a d).1 := by
  unfold create_transfer
  rcases hrun : create_transfer_run db f t a d with ⟨tr, res⟩
  cases res with
  | error e => exact hn
  | ok p =>
    rcases p with ⟨db3, r⟩
    obtain ⟨-, -, db1, db2, -, -, -, hu1, hu2, hins⟩ :=
      create_transfer_run_ok_steps hrun
    obtain ⟨-, -, hu, -⟩ := insertTransferRow_ok hins
    have h2 : Nonneg db2 := execUpdateDelta_nonneg (execUpdateDelta_nonneg hn hu1) hu2
    intro x hx
    simp only at hx
    rw [hu] at hx
    exact h2 x hx

/-- The transfer engine never creates or deletes account rows and never
changes an account id. -/
theorem create_transfer_idsOf (db : DB) (f t : Nat) (a : Int) (d : Option String) :
    idsOf (create_transfer db f t a d).1 = idsOf db := by
  cases h2 : (create_transfer db f t a d).2 with
  | error e => rw [create_transfer_error_state h2]
  | ok r =>
    obtain ⟨-, -, -, -, -, -, -, husers, -, -⟩ := create_transfer_ok h2
    unfold idsOf
    rw [husers, idsOf_adjustRows, idsOf_adjustRows]

/-- One engine call — successful or not — leaves the total of all
balances unchanged, provided account ids are unique. -/
theorem create_transfer_sum {db : DB} (hnd : (idsOf db).Nodup) (f t : Nat)
    (a : Int) (d : Option String) :
    sumBal (create_transfer db f t a d).1 = sumBal db := by
  cases h2 : (create_transfer db f t a d).2 with
  | error e => rw [create_transfer_error_state h2]
  | ok r =>
    obtain ⟨s, recv, hf, ht, -, -, -, husers, -, -⟩ := create_transfer_ok h2
    have hsf := findUser_some hf
    have hst := findUser_some ht
    unfold idsOf at hnd
    have hcf : db.users.countP (fun x => x.id == f) = 1 :=
      countP_id_eq_one hnd hsf.1 hsf.2
    have hct : db.users.countP (fun x => x.id == t) = 1 :=
      countP_id_eq_one hnd hst.1 hst.2
    unfold sumBal
    rw [husers, sum_adjustRows, countP_adjustRows, sum_adjustRows, hcf, hct]
    ring

/-- Shape of a non-raising `update_balance` call: either no row matched
(`UPDATE 0`, state unchanged) or the new balance is admissible and all
matched rows now carry it. -/
theorem update_balance_ok_elim {db : DB} {uid : Nat} {nb : Int} {db2 : DB} {s : Bool}
    (h : update_balance db uid nb = .ok (db2, s)) :
    db2 = db ∨ (0 ≤ nb ∧ db2.transfers = db.transfers ∧
      db2.users = db.users.map
        (fun a => if a.id == uid && decide (0 ≤ a.balance)
                  then { a with balance := nb } else a)) := by
  simp only [update_balance] at h
  split at h
  · cases h; exact .inl rfl
  · split at h
    · exact Except.noConfusion h
    · next hlt =>
      cases h
      exact .inr ⟨le_of_not_lt hlt, rfl, rfl⟩

theorem update_balance_nonneg {db : DB} {uid : Nat} {nb : Int} {db2 : DB} {s : Bool}
    (hn : Nonneg db) (h : update_balance db uid nb = .ok (db2, s)) : Nonneg db2 := by
  rcases update_balance_ok_elim h with rfl | ⟨hnb, -, husers⟩
  · exact hn
  · intro x hx
    rw [husers] at hx
    rcases List.mem_map.1 hx with ⟨a, ha, rfl⟩
    by_cases hc : (a.id == uid && decide (0 ≤ a.balance)) = true
    · simpa [hc] using hnb
    · simpa [hc] using hn a ha

/-- In a table with pairwise-distinct ids, lookup of a present id returns
precisely that row. -/
theorem find?_id_of_mem_nodup {l : List Account} {uid : Nat} {x : Account}
    (hnd : (l.map (fun a => a.id)).Nodup) (hmem : x ∈ l) (hid : x.id = uid) :
    l.find? (fun a => a.id == uid) = some x := by
  induction l with
  | nil => cases hmem
  | cons h tl ih =>
    simp only [List.map_cons, List.nodup_cons] at hnd
    rcases List.mem_cons.1 hmem with rfl | htl
    · simp [List.find?_cons, hid]
    · have hne : ¬ h.id = uid := fun hcon =>
        hnd.1 (List.mem_map.2 ⟨x, htl, by rw [hid, hcon]⟩)
    -- the head does not match, so lookup continues in the tail
      rw [List.find?_cons_of_neg _ (by simpa using hne)]
      exact ih hnd.2 htl

/-- Reading back the balance after `update_balance` has rewritten the
looked-up row. -/
theorem find?_update_row {l : List Account} {uid : Nat} {nb : Int} {acc : Account}
    (hfind : l.find? (fun a => a.id == uid) = some acc) (hb : 0 ≤ acc.balance) :
    (l.map (fun a => if a.id == uid && decide (0 ≤ a.balance)
                     then { a with balance := nb } else a)).find? (fun a => a.id == uid)
      = some { acc with balance := nb } := by
  induction l with
  | nil => simp at hfind
  | cons h tl ih =>
    by_cases hid : h.id = uid
    · rw [List.find?_cons_of_pos _ (by simpa using hid)] at hfind
      obtain rfl : h = acc := by simpa using hfind
      have hcond : (h.id == uid && decide (0 ≤ h.balance)) = true := by
        simp [hid, hb]
      simp only [List.map_cons, hcond, if_true]
      rw [List.find?_cons_of_pos]
      simpa using hid
    · rw [List.find?_cons_of_neg _ (by simpa using hid)] at hfind
      have hcond : (h.id == uid && decide (0 ≤ h.balance)) = false := by
        simp [hid]
      simp only [List.map_cons, hcond, Bool.false_eq_true, if_false]
      rw [List.find?_cons_of_neg _ (by simpa using hid)]
      exact ih hfind

/-- The engine requests either only the source lock (when the call dies at
the sender check) or the source lock followed by the destination lock. -/
theorem transferLocks_shape (db : DB) (f t : Nat) (a : Int) :
    transferLocks db f t a = [f] ∨ transferLocks db f t a = [f, t] := by
  unfold transferLocks create_transfer_run
  split
  · simp [List.filterMap]
  · split
    · simp [List.filterMap]
    · split
      · simp [List.filterMap]
      · split
        · simp [List.filterMap]
        · split
          · simp [List.filterMap]
          · split <;> simp [List.filterMap]

/-- Whenever the sender exists with sufficient funds, both locks are
requested: source first, then destination. -/
theorem transferLocks_both {db : DB} {f t : Nat} {a : Int} {s : Account}
    (hs : findUser db f = some s) (hle : a ≤ s.balance) :
    transferLocks db f t a = [f, t] := by
  unfold transferLocks create_transfer_run
  rw [hs]
  simp only [if_neg (not_lt.2 hle)]
  split
  · simp [List.filterMap]
  · split
    · simp [List.filterMap]
    · split
      · simp [List.filterMap]
      · split <;> simp [List.filterMap]

/-- C1: counterexample. The claim says both row locks are acquired before
either balance is read and that the acquisition order is independent of
the transfer direction (ascending account id). In the code the first
statement `SELECT balance ... FOR UPDATE` locks and reads the SOURCE row,
and only afterwards is the destination row locked, so the order is
source-then-destination: transfers 1→2 and 2→1 request the locks in
opposite orders, and the source balance is read before the second lock. -/
theorem claim_C1_counterexample :
    transferLocks exDB 1 2 10000 = [1, 2] ∧
    transferLocks exDB 2 1 10000 = [2, 1] ∧
    transferLocks exDB 1 2 10000 ≠ transferLocks exDB 2 1 10000 ∧
    (create_transfer_run exDB 1 2 10000 none).1
      = [.lockRow 1, .readBalance 1, .lockRow 2,
         .updateRow 1, .updateRow 2, .insertLedger] :=
  ⟨by decide, by decide, by decide, by decide⟩

/-- C1 (amended): the engine acquires the exclusive lock on the source row
together with reading its balance in one statement, and requests the
destination lock only after the sender and sufficiency checks; the lock
order is therefore always source-then-destination, which depends on the
transfer direction. -/
theorem claim_C1_theorem :
    ∀ (db : DB) (f t : Nat) (a : Int),
      (transferLocks db f t a = [f] ∨ transferLocks db f t a = [f, t]) ∧
      (∀ s, findUser db f = some s → a ≤ s.balance →
        transferLocks db f t a = [f, t]) :=
  fun db f t a =>
    ⟨transferLocks_shape db f t a, fun _ hs hle => transferLocks_both hs hle⟩

/-- C1: witness for the amended claim at a concrete database. -/
theorem claim_C1_witness : transferLocks exDB 1 2 100 = [1, 2] :=
  (claim_C1_theorem exDB 1 2 100).2 ⟨1, "alice", 100000⟩ (by decide) (by decide)

/-- C2: counterexample. With sender 1 holding 0.00 and destination id 2
absent, the engine reports insufficient funds, not destination-not-found:
sufficiency of funds is checked before destination existence. -/
theorem claim_C2_counterexample :
    create_transfer exPoorDB 1 2 500 none = (exPoorDB, .error .insufficientFunds) ∧
    findUser exPoorDB 2 = none ∧
    get_balance exPoorDB 1 = some 0 :=
  ⟨by decide, by decide, by decide⟩

/-- C2 (amended): the engine checks, in order, (a) source existence, then
(b) sufficiency of the source balance, then (c) destination existence,
each with its own distinct error; in particular when the destination is
missing and funds are insufficient, the insufficient-funds error wins. -/
theorem claim_C2_theorem :
    ∀ (db : DB) (f t : Nat) (a : Int) (d : Option String),
      (findUser db f = none →
        (create_transfer db f t a d).2 = .error .senderNotFound) ∧
      (∀ s, findUser db f = some s → s.balance < a →
        (create_transfer db f t a d).2 = .error .insufficientFunds) ∧
      (∀ s, findUser db f = some s → ¬ s.balance < a → findUser db t = none →
        (create_transfer db f t a d).2 = .error .receiverNotFound) := by
  intro db f t a d
  refine ⟨fun h => ?_, fun s hs hlt => ?_, fun s hs hge ht => ?_⟩
  · simp [create_transfer, create_transfer_run, h]
  · simp [create_transfer, create_transfer_run, hs, hlt]
  · simp [create_transfer, create_transfer_run, hs, hge, ht]

/-- C2: witness exercising all three engine checks at concrete inputs. -/
theorem claim_C2_witness :
    (create_transfer exDB 3 1 50 none).2 = .error .senderNotFound ∧
    (create_transfer exPoorDB 1 1 7 none).2 = .error .insufficientFunds ∧
    (create_transfer exDB 1 5 50 none).2 = .error .receiverNotFound :=
  ⟨(claim_C2_theorem exDB 3 1 50 none).1 (by decide),
   (claim_C2_theorem exPoorDB 1 1 7 none).2.1 ⟨1, "alice", 0⟩ (by decide) (by decide),
   (claim_C2_theorem exDB 1 5 50 none).2.2 ⟨1, "alice", 100000⟩
     (by decide) (by decide) (by decide)⟩

/-- C3: atomicity under failure. Every failing call of the transfer route
(self-transfer, unknown recipient username, or any engine-level failure:
missing source, missing destination, insufficient funds, constraint
violation) leaves the observable database — all balances and the
ledger — exactly as it was before the call. -/
theorem claim_C3_theorem :
    ∀ (db : DB) (cu : Account) (toname : String) (a : Int) (d : Option String)
      (e : RouteErr),
      (route_create_transfer db cu toname a d).2 = .error e →
      (route_create_transfer db cu toname a d).1 = db := by
  intro db cu toname a d e h
  by_cases hself : (toname == cu.username) = true
  · simp [route_create_transfer, hself]
  · rcases hrec : get_user_by_username db toname with _ | recipient
    · simp [route_create_transfer, hself, hrec]
    · rcases hct : create_transfer db cu.id recipient.id a d with ⟨dbx, resx⟩
      cases resx with
      | ok r => simp [route_create_transfer, hself, hrec, hct] at h
      | error e' =>
        have h1 : (create_transfer db cu.id recipient.id a d).2 = .error e' := by
          rw [hct]
        have hdb : dbx = db := by
          have h2 := create_transfer_error_state h1
          rw [hct] at h2
          exact h2
        simp [route_create_transfer, hself, hrec, hct, hdb]

/-- C3: witness — a failing call (unknown recipient) at a concrete state. -/
theorem claim_C3_witness :
    (route_create_transfer exDB ⟨1, "alice", 100000⟩ "carol" 500 none).1 = exDB :=
  claim_C3_theorem exDB ⟨1, "alice", 100000⟩ "carol" 500 none .recipientNotFound
    (by decide)

/-- An insufficiently funded transfer dies at the sufficiency check and,
by rollback, returns the pre-call state. -/
theorem create_transfer_insufficient {db : DB} {f t : Nat} {a : Int}
    {d : Option String} {s : Account}
    (hs : findUser db f = some s) (hlt : s.balance < a) :
    create_transfer db f t a d = (db, .error .insufficientFunds) := by
  simp [create_transfer, create_transfer_run, hs, hlt]

/-- The observable state of the transfer route is either the untouched
input state or the engine's observable state. -/
theorem route_create_transfer_state (db : DB) (cu : Account) (toname : String)
    (a : Int) (d : Option String) :
    (route_create_transfer db cu toname a d).1 = db ∨
    ∃ rid, (route_create_transfer db cu toname a d).1
      = (create_transfer db cu.id rid a d).1 := by
  unfold route_create_transfer
  split
  · exact .inl rfl
  · split
    · exact .inl rfl
    · next recipient hrec =>
      split
      · next db2 r heq => exact .inr ⟨recipient.id, by rw [heq]⟩
      · next db2 e heq => exact .inr ⟨recipient.id, by rw [heq]⟩

theorem deposit_nonneg {db : DB} (hn : Nonneg db) (uid : Nat) (a : Int) :
    Nonneg (deposit_balance db uid a).1 := by
  unfold deposit_balance
  split
  · exact hn
  · split
    · exact hn
    · next db2 heq => exact update_balance_nonneg hn heq
    · next db2 heq => exact update_balance_nonneg hn heq

theorem withdraw_nonneg {db : DB} (hn : Nonneg db) (uid : Nat) (a : Int) :
    Nonneg (withdraw_balance db uid a).1 := by
  unfold withdraw_balance
  split
  · exact hn
  · split
    · exact hn
    · split
      · exact hn
      · next db2 heq => exact update_balance_nonneg hn heq
      · next db2 heq => exact update_balance_nonneg hn heq

/-- C4: non-negativity. Every route-level operation (deposit, withdraw,
transfer) maps a state whose balances are all non-negative to a state
whose balances are all non-negative; a withdrawal whose result would be
negative is rejected with the insufficient-funds error leaving the state
untouched, and so is a transfer exceeding the source balance. -/
theorem claim_C4_theorem :
    (∀ (db : DB) (op : Op), Nonneg db → Nonneg (applyOp db op)) ∧
    (∀ (db : DB) (uid : Nat) (a b : Int),
      get_balance db uid = some b → b - a < 0 →
      withdraw_balance db uid a = (db, .error .insufficientBalance)) ∧
    (∀ (db : DB) (f t : Nat) (a : Int) (d : Option String) (s : Account),
      findUser db f = some s → s.balance - a < 0 →
      (create_transfer db f t a d).1 = db) := by
  refine ⟨fun db op hn => ?_, fun db uid a b hb hneg => ?_, fun db f t a d s hs hneg => ?_⟩
  · cases op with
    | deposit uid a => exact deposit_nonneg hn uid a
    | withdraw uid a => exact withdraw_nonneg hn uid a
    | transfer cu toname a d =>
      rcases route_create_transfer_state db cu toname a d with h | ⟨rid, h⟩
      · simpa [applyOp, h] using hn
      · have := create_transfer_nonneg hn cu.id rid a d
        simpa [applyOp, h] using this
  · have hba : b < a := by linarith
    simp [withdraw_balance, hb, hba]
  · have h2 := @create_transfer_insufficient db f t a d s hs (by linarith)
    rw [h2]

/-- C4: witness — the operations preserve non-negativity from the concrete
two-account state, and an overdraft attempt is rejected unchanged. -/
theorem claim_C4_witness :
    Nonneg (applyOp exDB (.withdraw 1 40000)) ∧
    withdraw_balance exDB 1 150000 = (exDB, .error .insufficientBalance) ∧
    (create_transfer exDB 1 2 150000 none).1 = exDB :=
  ⟨claim_C4_theorem.1 exDB (.withdraw 1 40000) (by unfold Nonneg; decide),
   claim_C4_theorem.2.1 exDB 1 150000 100000 (by decide) (by decide),
   claim_C4_theorem.2.2 exDB 1 2 150000 none ⟨1, "alice", 100000⟩
     (by decide) (by decide)⟩

/-- C5: conservation. Any sequence of engine transfer calls — the
successful ones debit and credit the same amount, the failing ones roll
back — leaves the sum of all account balances unchanged, provided account
ids are unique (the primary-key invariant). -/
theorem claim_C5_theorem :
    ∀ (calls : List (Nat × Nat × Int)) (db : DB), (idsOf db).Nodup →
      sumBal (calls.foldl
        (fun s c => (create_transfer s c.1 c.2.1 c.2.2 none).1) db) = sumBal db := by
  intro calls
  induction calls with
  | nil => intro db _; rfl
  | cons c tl ih =>
    intro db hnd
    have h1 : sumBal (create_transfer db c.1 c.2.1 c.2.2 none).1 = sumBal db :=
      create_transfer_sum hnd c.1 c.2.1 c.2.2 none
    have h2 : (idsOf (create_transfer db c.1 c.2.1 c.2.2 none).1).Nodup := by
      rw [create_transfer_idsOf]; exact hnd
    rw [List.foldl_cons, ih _ h2, h1]

/-- C5: witness — a concrete mixed sequence (two successful transfers and
one that fails for insufficient funds) preserves the total. -/
theorem claim_C5_witness :
    sumBal ([(1, 2, 50000), (2, 1, 10000), (1, 2, 99999999)].foldl
      (fun s c => (create_transfer s c.1 c.2.1 c.2.2 none).1) exDB) = sumBal exDB :=
  claim_C5_theorem [(1, 2, 50000), (2, 1, 10000), (1, 2, 99999999)] exDB (by decide)

/-- C6: self-transfer rejection. The transfer route always rejects a
request whose recipient username is the caller's own with the dedicated
self-transfer error and an unchanged state; the engine itself can never
successfully execute a transfer with source id equal to destination id
(the ledger INSERT's `CHECK (from_user_id != to_user_id)` fails and the
transaction rolls back); consequently every row ever added to the ledger
has distinct source and destination ids. -/
theorem claim_C6_theorem :
    (∀ (db : DB) (cu : Account) (a : Int) (d : Option String),
      route_create_transfer db cu cu.username a d = (db, .error .selfTransfer)) ∧
    (∀ (db : DB) (A : Nat) (a : Int) (d : Option String) (r : TransferRec),
      (create_transfer db A A a d).2 ≠ .ok r) ∧
    (∀ (db : DB) (f t : Nat) (a : Int) (d : Option String) (tr : TransferRec),
      tr ∈ ((create_transfer db f t a d).1).transfers →
      tr ∈ db.transfers ∨ tr.from_user_id ≠ tr.to_user_id) := by
  refine ⟨fun db cu a d => ?_, fun db A a d r h => ?_, fun db f t a d tr htr => ?_⟩
  · simp [route_create_transfer]
  · exact (create_transfer_ok_pos h).2 rfl
  · cases h2 : (create_transfer db f t a d).2 with
    | error e =>
      rw [create_transfer_error_state h2] at htr
      exact .inl htr
    | ok r =>
      obtain ⟨-, -, -, -, -, -, hne, -, htrans, hrf, hrt, -⟩ := create_transfer_ok h2
      rw [htrans] at htr
      rcases List.mem_append.1 htr with hold | hnew
      · exact .inl hold
      · obtain rfl : tr = r := by simpa using hnew
        rw [hrf, hrt]
        exact .inr hne

/-- C6: witness — self-transfer rejection and the ledger invariant at a
concrete successful transfer. -/
theorem claim_C6_witness :
    route_create_transfer exDB ⟨2, "bob", 100000⟩ "bob" 500 none
      = (exDB, .error .selfTransfer) ∧
    ((⟨1, 1, 2, 50000, none⟩ : TransferRec) ∈ exDB.transfers ∨
      (⟨1, 1, 2, 50000, none⟩ : TransferRec).from_user_id
        ≠ (⟨1, 1, 2, 50000, none⟩ : TransferRec).to_user_id) :=
  ⟨claim_C6_theorem.1 exDB ⟨2, "bob", 100000⟩ 500 none,
   claim_C6_theorem.2.2 exDB 1 2 50000 none ⟨1, 1, 2, 50000, none⟩ (by decide)⟩

/-- In a table with pairwise-distinct ids, a present id whose row has a
non-negative balance makes `update_balance`'s WHERE clause match exactly
one row. -/
theorem countP_id_balance_eq_one {l : List Account} {uid : Nat} {acc : Account}
    (hnd : (l.map (fun a => a.id)).Nodup) (hmem : acc ∈ l) (hid : acc.id = uid)
    (hb : 0 ≤ acc.balance) :
    l.countP (fun a => a.id == uid && decide (0 ≤ a.balance)) = 1 := by
  induction l with
  | nil => cases hmem
  | cons h tl ih =>
    simp only [List.map_cons, List.nodup_cons] at hnd
    rcases List.mem_cons.1 hmem with rfl | htl
    · have hzero : tl.countP (fun a => a.id == uid && decide (0 ≤ a.balance)) = 0 := by
        refine List.countP_eq_zero.2 (fun x hx hpx => ?_)
        have hxid : x.id = uid := by
          have h2 := hpx
          simp only [Bool.and_eq_true, beq_iff_eq, decide_eq_true_eq] at h2
          exact h2.1
        exact hnd.1 (List.mem_map.2 ⟨x, hx, by rw [hxid, hid]⟩)
      simp [List.countP_cons, hid, hb, hzero]
    · have hne : ¬ h.id = uid := fun hcon =>
        hnd.1 (List.mem_map.2 ⟨acc, htl, by rw [hid, hcon]⟩)
      simp [List.countP_cons, hne, ih hnd.2 htl]

theorem get_balance_some {db : DB} {uid : Nat} {b : Int}
    (hb : get_balance db uid = some b) :
    ∃ acc, findUser db uid = some acc ∧ acc.balance = b := by
  unfold get_balance at hb
  rcases hfu : findUser db uid with _ | acc
  · rw [hfu] at hb
    exact absurd hb (by simp)
  · rw [hfu] at hb
    simp only [Option.map_some', Option.some.injEq] at hb
    exact ⟨acc, rfl, hb⟩

/-- C7: counterexample. `TransferRequest.validate_amount` (and its deposit
and withdraw twins) accepts the 3-fractional-digit amount 10.005 and
silently quantizes it to 10.00 (`v.quantize(Decimal('0.01'))`, half-even),
instead of rejecting it: the returned value 10.00 differs from the
submitted 10.005 (cross-multiplied, 1000 * 10 is not 10005). -/
theorem claim_C7_counterexample :
    transfer_validate_amount ⟨10005, 3⟩ = .ok ⟨1000, 2⟩ ∧
    deposit_validate_amount ⟨10005, 3⟩ = .ok ⟨1000, 2⟩ ∧
    withdraw_validate_amount ⟨10005, 3⟩ = .ok ⟨1000, 2⟩ ∧
    (1000 : Int) * 10 ≠ 10005 :=
  ⟨by decide, by decide, by decide, by decide⟩

/-- C7 (amended): the request validators reject exactly the non-positive
amounts; every positive amount is accepted after being quantized to scale
2 (rounding half-even when more than 2 fractional digits were supplied —
not rejected), and quantization is value-preserving only when the input
already had at most 2 fractional digits. -/
theorem claim_C7_theorem :
    ∀ v : Dec,
      (v.mant ≤ 0 →
        transfer_validate_amount v = .error "Сумма перевода должна быть больше нуля" ∧
        deposit_validate_amount v = .error "Сумма пополнения должна быть больше нуля" ∧
        withdraw_validate_amount v = .error "Сумма списания должна быть больше нуля") ∧
      (0 < v.mant →
        transfer_validate_amount v = .ok (quantize2 v) ∧
        deposit_validate_amount v = .ok (quantize2 v) ∧
        withdraw_validate_amount v = .ok (quantize2 v)) ∧
      (quantize2 v).scale = 2 ∧
      (v.scale ≤ 2 → (quantize2 v).mant * (10 : Int) ^ v.scale = v.mant * 10 ^ 2) := by
  intro v
  refine ⟨fun h => ⟨?_, ?_, ?_⟩, fun h => ⟨?_, ?_, ?_⟩, ?_, fun hs => ?_⟩
  · simp [transfer_validate_amount, h]
  · simp [deposit_validate_amount, h]
  · simp [withdraw_validate_amount, h]
  · simp [transfer_validate_amount, not_le.2 h]
  · simp [deposit_validate_amount, not_le.2 h]
  · simp [withdraw_validate_amount, not_le.2 h]
  · unfold quantize2
    split <;> rfl
  · unfold quantize2
    rw [if_pos hs]
    simp only
    rw [mul_assoc, ← pow_add]
    congr 2
    omega

/-- C7: witness for the amended claim — a scale-1 amount 25.0 is accepted
and value-preserved; a negative amount is rejected. -/
theorem claim_C7_witness :
    transfer_validate_amount ⟨250, 1⟩ = .ok (quantize2 ⟨250, 1⟩) ∧
    (quantize2 ⟨250, 1⟩).mant * (10 : Int) ^ (1 : Nat) = 250 * 10 ^ 2 ∧
    transfer_validate_amount ⟨-5, 2⟩ = .error "Сумма перевода должна быть больше нуля" :=
  ⟨((claim_C7_theorem ⟨250, 1⟩).2.1 (by decide)).1,
   (claim_C7_theorem ⟨250, 1⟩).2.2.2 (by decide),
   ((claim_C7_theorem ⟨-5, 2⟩).1 (by decide)).1⟩

/-- C8: counterexample. Called with amount 0, the engine does NOT fail
with a dedicated invalid-amount error before touching balances: the
sufficiency check 100000 < 0 passes, both balance UPDATE statements are
issued (the trace below contains both `updateRow` events), and the call
only fails at the ledger INSERT's `CHECK (amount > 0)` with a
check-violation error, after which the transaction rolls back. -/
theorem claim_C8_counterexample :
    create_transfer exDB 1 2 0 none = (exDB, .error .checkViolation) ∧
    (create_transfer_run exDB 1 2 0 none).1
      = [.lockRow 1, .readBalance 1, .lockRow 2,
         .updateRow 1, .updateRow 2, .insertLedger] :=
  ⟨by decide, by decide⟩

/-- C8 (amended): the engine has no explicit amount > 0 re-check; yet no
call with a non-positive amount can ever commit — it always fails (at one
of the existence checks, or at a schema CHECK constraint after the
provisional balance mutations) and the rollback leaves the observable
state unchanged. -/
theorem claim_C8_theorem :
    ∀ (db : DB) (f t : Nat) (a : Int) (d : Option String), a ≤ 0 →
      (∀ r, (create_transfer db f t a d).2 ≠ .ok r) ∧
      (create_transfer db f t a d).1 = db := by
  intro db f t a d ha
  have hfail : ∀ r, (create_transfer db f t a d).2 ≠ .ok r := by
    intro r h
    have := (create_transfer_ok_pos h).1
    omega
  refine ⟨hfail, ?_⟩
  cases h2 : (create_transfer db f t a d).2 with
  | error e => exact create_transfer_error_state h2
  | ok r => exact absurd h2 (hfail r)

/-- C8: witness — a negative amount at a concrete state. -/
theorem claim_C8_witness :
    (∀ r, (create_transfer exDB 1 2 (-500) none).2 ≠ .ok r) ∧
    (create_transfer exDB 1 2 (-500) none).1 = exDB :=
  claim_C8_theorem exDB 1 2 (-500) none (by decide)

/-- C9: the withdraw path. For an existing account with non-negative
stored balance b (unique id), withdrawing a: if b - a is negative the
route fails with the insufficient-funds error and performs no write;
otherwise it returns b - a and the stored balance afterwards is b - a. -/
theorem claim_C9_theorem :
    ∀ (db : DB) (uid : Nat) (a b : Int),
      (idsOf db).Nodup → get_balance db uid = some b → 0 ≤ b →
      (b - a < 0 → withdraw_balance db uid a = (db, .error .insufficientBalance)) ∧
      (0 ≤ b - a → (withdraw_balance db uid a).2 = .ok (b - a) ∧
        get_balance ((withdraw_balance db uid a).1) uid = some (b - a)) := by
  intro db uid a b hnd hb hb0
  obtain ⟨acc, hacc, hbal⟩ := get_balance_some hb
  obtain ⟨hmem, hid⟩ := findUser_some hacc
  unfold idsOf at hnd
  constructor
  · intro hneg
    have hba : b < a := by linarith
    simp [withdraw_balance, hb, hba]
  · intro hpos
    have hba : ¬ b < a := by linarith
    have hcount : db.users.countP (fun a => a.id == uid && decide (0 ≤ a.balance)) = 1 :=
      countP_id_balance_eq_one hnd hmem hid (by rw [hbal]; exact hb0)
    have hupd : update_balance db uid (b - a)
        = .ok (⟨db.users.map
            (fun x => if x.id == uid && decide (0 ≤ x.balance)
                      then { x with balance := b - a } else x), db.transfers⟩, true) := by
      simp only [update_balance, hcount]
      rw [if_neg (by omega), if_neg (by omega)]
      rfl
    have hfind2 := @find?_update_row db.users uid (b - a) acc hacc (by rw [hbal]; exact hb0)
    have hw : withdraw_balance db uid a
        = (⟨db.users.map
            (fun x => if x.id == uid && decide (0 ≤ x.balance)
                      then { x with balance := b - a } else x), db.transfers⟩,
           .ok (b - a)) := by
      simp [withdraw_balance, hb, hba, hupd]
    refine ⟨by rw [hw], ?_⟩
    rw [hw]
    unfold get_balance findUser
    simp only
    rw [hfind2]
    rfl

/-- C9: witness — concrete overdraft rejection and a concrete successful
withdrawal from the two-account state. -/
theorem claim_C9_witness :
    withdraw_balance exDB 1 150000 = (exDB, .error .insufficientBalance) ∧
    (withdraw_balance exDB 1 40000).2 = .ok 60000 :=
  ⟨(claim_C9_theorem exDB 1 150000 100000 (by decide) (by decide) (by decide)).1
     (by decide),
   ((claim_C9_theorem exDB 1 40000 100000 (by decide) (by decide) (by decide)).2
     (by decide)).1⟩

/-- C10: `update_balance` reports success iff the account exists and its
stored balance before the update is non-negative (the WHERE guard tests
the OLD balance, never the new one); with a negative new balance the
guard still matches and only the schema `CHECK (balance >= 0)` stops the
write, raising a check violation instead of reporting failure. -/
theorem claim_C10_theorem :
    ∀ (db : DB) (uid : Nat) (nb : Int), (idsOf db).Nodup →
      (0 ≤ nb →
        ((∃ db2, update_balance db uid nb = .ok (db2, true)) ↔
          ∃ b, get_balance db uid = some b ∧ 0 ≤ b)) ∧
      (nb < 0 → ∀ b, get_balance db uid = some b → 0 ≤ b →
        update_balance db uid nb = .error .checkViolation) := by
  intro db uid nb hnd
  unfold idsOf at hnd
  constructor
  · intro hnb
    constructor
    · rintro ⟨db2, h⟩
      simp only [update_balance] at h
      split at h
      · simp at h
      · split at h
        · exact Except.noConfusion h
        · next hm0 _ =>
          have hpos : 0 < db.users.countP
              (fun a => a.id == uid && decide (0 ≤ a.balance)) := Nat.pos_of_ne_zero hm0
          obtain ⟨x, hx, hpx⟩ := List.countP_pos_iff.1 hpos
          simp only [Bool.and_eq_true, beq_iff_eq, decide_eq_true_eq] at hpx
          refine ⟨x.balance, ?_, hpx.2⟩
          unfold get_balance findUser
          rw [find?_id_of_mem_nodup hnd hx hpx.1]
          rfl
    · rintro ⟨b, hb, hb0⟩
      obtain ⟨acc, hacc, hbal⟩ := get_balance_some hb
      obtain ⟨hmem, hid⟩ := findUser_some hacc
      have hcount : db.users.countP (fun a => a.id == uid && decide (0 ≤ a.balance)) = 1 :=
        countP_id_balance_eq_one hnd hmem hid (by rw [hbal]; exact hb0)
      refine ⟨⟨db.users.map
          (fun x => if x.id == uid && decide (0 ≤ x.balance)
                    then { x with balance := nb } else x), db.transfers⟩, ?_⟩
      simp only [update_balance, hcount]
      rw [if_neg (by omega), if_neg (by omega)]
      rfl
  · intro hnb b hb hb0
    obtain ⟨acc, hacc, hbal⟩ := get_balance_some hb
    obtain ⟨hmem, hid⟩ := findUser_some hacc
    have hcount : db.users.countP (fun a => a.id == uid && decide (0 ≤ a.balance)) = 1 :=
      countP_id_balance_eq_one hnd hmem hid (by rw [hbal]; exact hb0)
    simp only [update_balance, hcount]
    rw [if_neg (by omega), if_pos hnb]

/-- C10: witness — for account 2 (stored balance 1000.00 ≥ 0) a
non-negative write succeeds and a negative write raises the check
violation. -/
theorem claim_C10_witness :
    (∃ db2, update_balance exDB 2 0 = .ok (db2, true)) ∧
    update_balance exDB 2 (-1) = .error .checkViolation :=
  ⟨((claim_C10_theorem exDB 2 0 (by decide)).1 (by decide)).2
     ⟨100000, by decide, by decide⟩,
   (claim_C10_theorem exDB 2 (-1) (by decide)).2 (by decide) 100000
     (by decide) (by decide)⟩

end BalanceService
